import Mathlib

/-!
Verification of the two regex-based rewrite scripts of this repository:
`scripts/fix-types.py` (the Type Annotator) and `scripts/fix-addtool-pattern.py`
(the Pattern Rewriter).  Both scripts are shallowly embedded: Python's `re`
library is modelled by a small backtracking regular-expression engine over
`List Char` (leftmost match, greedy quantifiers with backtracking, numbered
capturing groups, `re.sub` / `re.search` / `re.finditer` scanning), and each
script's functions are transcribed over that engine.
-/

set_option maxRecDepth 20000

abbrev Str := List Char

abbrev Groups := List (Nat × Str)

/-- Character-set atoms of the regex dialect used by the scripts:
single literal characters, `[...]` and `[^...]` classes, `\w`, `\s`,
`.` without DOTALL (any char except newline) and `.` with DOTALL. -/
inductive CSet where
  | lit (c : Char)
  | oneOf (cs : List Char)
  | noneOf (cs : List Char)
  | word
  | space
  | anyNoNL
  | anyAll
deriving Repr, DecidableEq

def isSpaceC (c : Char) : Bool :=
  c == ' ' || c == '\t' || c == '\n' || c == '\r' || c == '\x0b' || c == '\x0c'

def isWordC (c : Char) : Bool :=
  ('a' ≤ c && c ≤ 'z') || ('A' ≤ c && c ≤ 'Z') || ('0' ≤ c && c ≤ '9') || c == '_'

def csMem : CSet → Char → Bool
  | CSet.lit a, c => c == a
  | CSet.oneOf l, c => l.any (fun x => x == c)
  | CSet.noneOf l, c => !(l.any (fun x => x == c))
  | CSet.word, c => isWordC c
  | CSet.space, c => isSpaceC c
  | CSet.anyNoNL, c => c != '\n'
  | CSet.anyAll, _ => true

/-- Regular expressions as compiled by the scripts' patterns: empty string,
single-character sets, concatenation, greedy `*`, greedy `?`, and numbered
capturing groups.  `+` is definable as `r r*`. -/
inductive RE where
  | eps
  | ch (cs : CSet)
  | seq (a b : RE)
  | star (r : RE)
  | opt (r : RE)
  | grp (n : Nat) (r : RE)
deriving Repr

def litRE (c : Char) : RE := RE.ch (CSet.lit c)

def lits : Str → RE
  | [] => RE.eps
  | c :: cs => RE.seq (litRE c) (lits cs)

def seqs : List RE → RE
  | [] => RE.eps
  | r :: rs => RE.seq r (seqs rs)

def plusRE (r : RE) : RE := RE.seq r (RE.star r)

def wsStar : RE := RE.star (RE.ch CSet.space)

def oalt (a b : Option (Groups × Str)) : Option (Groups × Str) :=
  match a with
  | some v => some v
  | none => b

/-- The greedy-`*` loop: try one more iteration of the body first (longest
match first, as Python's backtracking does), falling back to stopping here.
An iteration that consumes nothing ends the loop (CPython's empty-iteration
cutoff), so `s.length + 1` iterations always suffice and the `fuel` argument
never runs out when started there. -/
def matStarAux (m : Str → Groups → (Groups → Str → Option (Groups × Str)) → Option (Groups × Str)) :
    Nat → Str → Groups → (Groups → Str → Option (Groups × Str)) → Option (Groups × Str)
  | 0, s, g, k => k g s
  | fuel + 1, s, g, k =>
      oalt (m s g (fun g1 s1 =>
              if s1.length < s.length then matStarAux m fuel s1 g1 k else none))
           (k g s)

/-- Backtracking matcher in continuation-passing style, mirroring Python's
`re` backtracking order: greedy quantifiers try the longest alternative first
and fall back on failure of the whole continuation.  A capturing group
records the characters its body consumed. -/
def mat : RE → Str → Groups → (Groups → Str → Option (Groups × Str)) → Option (Groups × Str)
  | RE.eps, s, g, k => k g s
  | RE.ch _, [], _, _ => none
  | RE.ch cs, c :: t, g, k => if csMem cs c then k g t else none
  | RE.seq a b, s, g, k => mat a s g (fun g1 s1 => mat b s1 g1 k)
  | RE.opt r, s, g, k => oalt (mat r s g k) (k g s)
  | RE.star r, s, g, k => matStarAux (mat r) (s.length + 1) s g k
  | RE.grp n r, s, g, k =>
      mat r s g (fun g1 s1 => k ((n, s.take (s.length - s1.length)) :: g1) s1)

/-- Attempt to match `r` at the very start of `s` (like `re.match`),
returning the final capture list and the unconsumed rest of `s`. -/
def matchHere (r : RE) (s : Str) : Option (Groups × Str) :=
  mat r s [] (fun g t => some (g, t))

/-- A successful leftmost search: the text before the match, the captures,
the matched text (Python's `group(0)`), and the text after the match. -/
structure Found where
  pre : Str
  grps : Groups
  matched : Str
  rest : Str
deriving Repr, DecidableEq

/-- Leftmost search, like `re.search`: try each start position from the left. -/
def findLeftmost (r : RE) : Str → Option Found
  | [] => (matchHere r []).map (fun gr => ⟨[], gr.1, [], gr.2⟩)
  | c :: t =>
    match matchHere r (c :: t) with
    | some gr => some ⟨[], gr.1, (c :: t).take ((c :: t).length - gr.2.length), gr.2⟩
    | none => (findLeftmost r t).map (fun fd => ⟨c :: fd.pre, fd.grps, fd.matched, fd.rest⟩)

/-- Python `match.group(n)`: the last-recorded capture of group `n`
(captures are prepended, so the first hit is the most recent one). -/
def getGroup (g : Groups) (n : Nat) : Str :=
  match g.find? (fun x => x.1 == n) with
  | some x => x.2
  | none => []

def reSearch (r : RE) (s : Str) : Option Groups :=
  (findLeftmost r s).map (·.grps)

/-- `re.sub` with a stateful replacement function (the scripts' replacers
mutate a `nonlocal changes` counter, threaded here as a `Nat`).  The
replacement function receives the absolute offset of the match end in the
scanned string (Python's `match.end()`), the matched text (`group(0)`) and
the captures.  Scanning resumes right after each match, exactly as `re.sub`
does.  All patterns in these scripts match at least one character, so the
empty-match guard is never taken. -/
def gsub (f : Nat → Str → Groups → Nat → Str × Nat) (r : RE) :
    Nat → Nat → Str → Nat → Str × Nat
  | 0, _, s, st => (s, st)
  | fuel + 1, pos, s, st =>
    match findLeftmost r s with
    | none => (s, st)
    | some fd =>
      if fd.matched.isEmpty then (s, st)
      else
        let endAbs := pos + fd.pre.length + fd.matched.length
        let (rep, st1) := f endAbs fd.matched fd.grps st
        let (tailRes, st2) := gsub f r fuel endAbs fd.rest st1
        (fd.pre ++ rep ++ tailRes, st2)

/-- `re.finditer`: all non-overlapping matches, left to right. -/
def findAll (r : RE) : Nat → Str → List Groups
  | 0, _ => []
  | fuel + 1, s =>
    match findLeftmost r s with
    | none => []
    | some fd => if fd.matched.isEmpty then [] else fd.grps :: findAll r fuel fd.rest

/-!
Embedding of `scripts/fix-types.py` (the Type Annotator).
-/

/-- Both quote characters, the class `['"]` of the call-site patterns. -/
def qtCls : CSet := CSet.oneOf ['\x27', '\x22']

/-- The negated class `[^'"]`. -/
def nqCls : CSet := CSet.noneOf ['\x27', '\x22']

/-- Leading part of the shared call-site prefix, up to (but not including)
the literal `"` the pattern demands before the name literal's closing quote:
`this\.registerTool\s*\(\s*['"][^'"]+`. -/
def preA : RE :=
  seqs [lits "this.registerTool".data, wsStar, litRE '(', wsStar,
        RE.ch qtCls, plusRE (RE.ch nqCls)]

/-- Remainder of the shared prefix after the name literal's `"['"]`:
`,\s*['"][^'"]+"['"],\s*` (the description literal and trailing comma). -/
def preB : RE :=
  seqs [litRE ',', wsStar, RE.ch qtCls, plusRE (RE.ch nqCls),
        litRE '\x22', RE.ch qtCls, litRE ',', wsStar]

/-- Group 1 of both call-site patterns of `fix_createtoolhandler_types`:
`(this\.registerTool\s*\(\s*['"][^'"]+"['"],\s*['"][^'"]+"['"],\s*)`.
The nesting exposes the literal `"` followed by the closing-quote class. -/
def prefRE : RE := RE.seq preA (RE.seq (litRE '\x22') (RE.seq (RE.ch qtCls) preB))

/-- Group 3: `(,\s*createToolHandler)`. -/
def midRE : RE := seqs [litRE ',', wsStar, lits "createToolHandler".data]

/-- Group 4: `(\s*\()`. -/
def sufRE : RE := RE.seq wsStar (litRE '(')

/-- Groups 2–4 of the named-schema pattern: `(\w+(?:Schema)?)(,\s*createToolHandler)(\s*\()`. -/
def namedTail : RE :=
  RE.seq (RE.grp 2 (RE.seq (plusRE (RE.ch CSet.word)) (RE.opt (lits "Schema".data))))
         (RE.seq (RE.grp 3 midRE) (RE.grp 4 sufRE))

/-- `pattern` of `fix_createtoolhandler_types` (fix-types.py line 31). -/
def pattern : RE := RE.seq (RE.grp 1 prefRE) namedTail

/-- The class `[^)]`. -/
def npCls : CSet := CSet.noneOf [')']

/-- Group 2 of the inline pattern: `(z\.object\s*\([^)]+\))`. -/
def objRE : RE :=
  RE.seq (lits "z.object".data)
         (RE.seq wsStar (RE.seq (litRE '(') (RE.seq (plusRE (RE.ch npCls)) (litRE ')'))))

/-- Groups 2–4 of the inline-schema pattern. -/
def inlineTail : RE := RE.seq (RE.grp 2 objRE) (RE.seq (RE.grp 3 midRE) (RE.grp 4 sufRE))

/-- `inline_pattern` of `fix_createtoolhandler_types` (fix-types.py line 56). -/
def inline_pattern : RE := RE.seq (RE.grp 1 prefRE) inlineTail

/-- `schema_pattern` of `extract_schemas` (fix-types.py line 12):
`const\s+(\w+Schema)\s*=\s*z\.object\s*\(\s*\{([^}]+)\}`. -/
def schema_pattern : RE :=
  seqs [lits "const".data, plusRE (RE.ch CSet.space),
        RE.grp 1 (RE.seq (plusRE (RE.ch CSet.word)) (lits "Schema".data)),
        wsStar, litRE '=', wsStar, lits "z.object".data, wsStar, litRE '(',
        wsStar, litRE '\x7b',
        RE.grp 2 (plusRE (RE.ch (CSet.noneOf ['\x7d']))), litRE '\x7d']

/-- `extract_schemas` (fix-types.py lines 7–19): all `const <Name>Schema =
z.object({...})` declarations, as (name, raw body) pairs in file order. -/
def extract_schemas (content : Str) : List (Str × Str) :=
  (findAll schema_pattern (content.length + 1) content).map
    (fun g => (getGroup g 1, getGroup g 2))

/-- The handler-destructuring pattern searched by `inline_replacer`
(fix-types.py line 73): `async\s*\(\s*\{([^}]+)\}`. -/
def handler_pattern : RE :=
  seqs [lits "async".data, wsStar, litRE '(', wsStar, litRE '\x7b',
        RE.grp 1 (plusRE (RE.ch (CSet.noneOf ['\x7d']))), litRE '\x7d']

/-- Compilation of a parameter name interpolated into an f-string pattern
(fix-types.py lines 82 and 96).  The names arising from destructuring lists
are identifier-like; of the regex metacharacters only `.` is modelled (as
the any-but-newline atom `re` compiles it to), all other characters are
taken literally. -/
def interpRE : Str → RE
  | [] => RE.eps
  | c :: cs => RE.seq (if c = '.' then RE.ch CSet.anyNoNL else litRE c) (interpRE cs)

/-- The type-marker pattern `rf'{param_name}:\s*z\.(\w+)\('` (fix-types.py line 82). -/
def typeMarkerRE (pname : Str) : RE :=
  seqs [interpRE pname, litRE ':', wsStar, lits "z.".data,
        RE.grp 1 (plusRE (RE.ch CSet.word)), litRE '(']

/-- The optionality pattern `rf'{param_name}:\s*z\.\w+\([^)]*\)\.optional\(\)'`
(fix-types.py line 96). -/
def optionalMarkerRE (pname : Str) : RE :=
  seqs [interpRE pname, litRE ':', wsStar, lits "z.".data,
        plusRE (RE.ch CSet.word), litRE '(', RE.star (RE.ch npCls), litRE ')',
        lits ".optional()".data]

/-- Python `str.strip()` (default whitespace). -/
def stripWS (s : Str) : Str :=
  ((s.dropWhile isSpaceC).reverse.dropWhile isSpaceC).reverse

/-- Python `str.rstrip()`. -/
def rstripWS (s : Str) : Str := (s.reverse.dropWhile isSpaceC).reverse

/-- Python `str.rstrip(',')`. -/
def rstripComma (s : Str) : Str := (s.reverse.dropWhile (fun c => c == ',')).reverse

/-- Python `str.split(',')`. -/
def splitComma : Str → List Str
  | [] => [[]]
  | c :: t =>
    match splitComma t with
    | [] => [[c]]
    | h :: r => if c == ',' then [] :: h :: r else (c :: h) :: r

/-- The zod-to-TypeScript map of `inline_replacer` (fix-types.py lines 85–93),
with its `'any'` default. -/
def tsTypeOf (zt : Str) : Str :=
  if zt = "string".data then "string".data
  else if zt = "number".data then "number".data
  else if zt = "boolean".data then "boolean".data
  else if zt = "array".data then "any[]".data
  else if zt = "object".data then "Record<string, any>".data
  else if zt = "enum".data then "string".data
  else if zt = "optional".data then "any".data
  else "any".data

/-- `next_chars.startswith('<')`. -/
def startsLt : Str → Bool
  | '<' :: _ => true
  | _ => false

/-- `replacer` of `fix_createtoolhandler_types` (fix-types.py lines 33–51).
`content` is the file text the closure reads for its ten-character
look-ahead (`content[next_chars_start:next_chars_start+10]`); `endAbs` is
`match.end()` in the string being scanned; `changes` is the shared counter. -/
def replacer (schemas : List (Str × Str)) (content : Str)
    (endAbs : Nat) (g0 : Str) (g : Groups) (changes : Nat) : Str × Nat :=
  let next_chars := (content.drop endAbs).take 10
  if startsLt next_chars then (g0, changes)
  else
    let schema_name := getGroup g 2
    if (schemas.map Prod.fst).any (fun k => k == schema_name) then
      (getGroup g 1 ++ schema_name ++ getGroup g 3 ++
         "<z.infer<typeof ".data ++ schema_name ++ ">>".data ++ getGroup g 4,
       changes + 1)
    else (g0, changes)

/-- One entry of the `param_types` list built by `inline_replacer`
(fix-types.py lines 79–101) for one destructured parameter. -/
def paramTypeEntry (schema : Str) (param : Str) : Str :=
  let param_name := stripWS (param.takeWhile (fun c => !(c == ':')))
  match reSearch (typeMarkerRE param_name) schema with
  | some tg =>
    let ts_type := tsTypeOf (getGroup tg 1)
    if (reSearch (optionalMarkerRE param_name) schema).isSome then
      param_name ++ "?: ".data ++ ts_type
    else
      param_name ++ ": ".data ++ ts_type
  | none => param_name ++ ": any".data

/-- `inline_replacer` of `fix_createtoolhandler_types` (fix-types.py lines
58–108).  Note the source's stale read: the already-annotated look-ahead
reads `content` (the original file text) at offsets of `new_content` (the
string actually being scanned, passed here as `scanStr`), while the
200-character handler window reads `new_content` itself. -/
def inline_replacer (content scanStr : Str)
    (endAbs : Nat) (g0 : Str) (g : Groups) (changes : Nat) : Str × Nat :=
  let next_chars := (content.drop endAbs).take 10
  if startsLt next_chars then (g0, changes)
  else
    let schema := getGroup g 2
    let window := (scanStr.drop endAbs).take 200
    match reSearch handler_pattern window with
    | none => (g0, changes)
    | some hg =>
      let params := (splitComma (getGroup hg 1)).map stripWS
      let param_types := params.map (paramTypeEntry schema)
      if param_types.isEmpty then (g0, changes)
      else
        (getGroup g 1 ++ schema ++ getGroup g 3 ++
           '<' :: ("\x7b ".data ++ List.intercalate "; ".data param_types ++ " \x7d".data) ++
           '>' :: getGroup g 4,
         changes + 1)

/-- The pure core of `fix_createtoolhandler_types` (fix-types.py lines
21–110): schema extraction, the named-schema pass, then the inline-schema
pass over the first pass's output, with the shared change counter.  Returns
the final text and the counter. -/
def fix_createtoolhandler_types (content : Str) : Str × Nat :=
  let schemas := extract_schemas content
  let r1 := gsub (replacer schemas content) pattern (content.length + 1) 0 content 0
  let r2 := gsub (inline_replacer content r1.1) inline_pattern (r1.1.length + 1) 0 r1.1 r1.2
  r2

/-!
Embedding of `scripts/fix-addtool-pattern.py` (the Pattern Rewriter).
-/

/-- The class `[^{}]`. -/
def nbCls : CSet := CSet.noneOf ['\x7b', '\x7d']

/-- One tolerated nesting chunk of the addTool pattern: `\{[^{}]*\}[^{}]*`. -/
def braceChunk : RE :=
  seqs [litRE '\x7b', RE.star (RE.ch nbCls), litRE '\x7d', RE.star (RE.ch nbCls)]

/-- The block pattern of `fix_addtool_pattern` (fix-addtool-pattern.py line 10):
`this\.addTool\(\{([^{}]*(?:\{[^{}]*\}[^{}]*)*)\}\);`. -/
def addtool_pattern : RE :=
  RE.seq (lits "this.addTool(\x7b".data)
    (RE.seq (RE.grp 1 (RE.seq (RE.star (RE.ch nbCls)) (RE.star braceChunk)))
            (lits "\x7d);".data))

/-- Quote class `['"`]` of the property patterns (single, double, backtick). -/
def q3Cls : CSet := CSet.oneOf ['\x27', '\x22', '\x60']

/-- Negated quote class `[^'"`]`. -/
def nq3Cls : CSet := CSet.noneOf ['\x27', '\x22', '\x60']

/-- `name:\s*['"`]([^'"`]+)['"`]` (fix-addtool-pattern.py line 16). -/
def namePropRE : RE :=
  seqs [lits "name:".data, wsStar, RE.ch q3Cls,
        RE.grp 1 (plusRE (RE.ch nq3Cls)), RE.ch q3Cls]

/-- `description:\s*['"`]([^'"`]+)['"`]` (line 17). -/
def descPropRE : RE :=
  seqs [lits "description:".data, wsStar, RE.ch q3Cls,
        RE.grp 1 (plusRE (RE.ch nq3Cls)), RE.ch q3Cls]

/-- `inputSchema:\s*(\w+)` (line 18). -/
def schemaPropRE : RE :=
  seqs [lits "inputSchema:".data, wsStar, RE.grp 1 (plusRE (RE.ch CSet.word))]

/-- `handler:\s*(async\s*\([^)]*\)\s*=>\s*\{.*)` with DOTALL (line 28). -/
def handlerPropRE : RE :=
  seqs [lits "handler:".data, wsStar,
        RE.grp 1 (seqs [lits "async".data, wsStar, litRE '(',
                        RE.star (RE.ch npCls), litRE ')', wsStar,
                        lits "=>".data, wsStar, litRE '\x7b',
                        RE.star (RE.ch CSet.anyAll)])]

/-- The f-string replacement block built by `transform_match` (lines 37–43),
with its fixed four-space indentation. -/
def registerToolText (name description schema handler : Str) : Str :=
  "    this.registerTool(\n      \x27".data ++ name ++
  "\x27,\n      \x27".data ++ description ++
  "\x27,\n      ".data ++ schema ++
  ",\n      createToolHandler(".data ++ handler ++ ")\n    )".data

/-- `transform_match` of `fix_addtool_pattern` (fix-addtool-pattern.py lines
12–43): extract name, description, schema identifier and handler body from
the stripped group 1; if any is absent, return the original match text. -/
def transform_match (g0 g1 : Str) : Str :=
  let block_content := stripWS g1
  match reSearch namePropRE block_content with
  | none => g0
  | some ng =>
    match reSearch descPropRE block_content with
    | none => g0
    | some dg =>
      match reSearch schemaPropRE block_content with
      | none => g0
      | some sg =>
        match reSearch handlerPropRE block_content with
        | none => g0
        | some hg =>
          let handler := rstripComma (rstripWS (getGroup hg 1))
          registerToolText (getGroup ng 1) (getGroup dg 1) (getGroup sg 1) handler

/-- `fix_addtool_pattern` (fix-addtool-pattern.py lines 5–47): substitute
every addTool block through `transform_match`.  The counter state of `gsub`
is unused by this script. -/
def fix_addtool_pattern (content : Str) : Str :=
  (gsub (fun _ g0 g st => (transform_match g0 (getGroup g 1), st))
     addtool_pattern (content.length + 1) 0 content 0).1

/-!
Command-line entry points of both scripts, modelled over an association-list
file system and an output alphabet of the messages the scripts print.
-/

abbrev FS := List (Str × Str)

def lookupFS (fs : FS) (p : Str) : Option Str :=
  match fs.find? (fun e => e.1 == p) with
  | some e => some e.2
  | none => none

def updateFS (fs : FS) (p c : Str) : FS := (p, c) :: fs

/-- The console messages of the two scripts (fix-addtool-pattern.py lines
60–62, fix-types.py lines 115–128): usage lines, the per-file reports, and
the missing-file error. -/
inductive OutMsg where
  | usageRewriter
  | fixedFile
  | usageAnnotator
  | fileNotFound
  | fixedTypes (changes : Nat)
  | noChanges
deriving Repr, DecidableEq

structure RunRes where
  out : List OutMsg
  fs : FS
  exitCode : Nat
  wrote : Bool
deriving Repr

/-- The `__main__` block of fix-addtool-pattern.py (lines 49–62): with an
argument the file is read, rewritten and written back unconditionally; with
no argument only the usage message is printed and the process ends normally
(exit status 0).  An unreadable path raises an uncaught exception,
modelled as a nonzero exit with nothing written. -/
def rewriterMain (args : List Str) (fs : FS) : RunRes :=
  match args with
  | [] => ⟨[OutMsg.usageRewriter], fs, 0, false⟩
  | p :: _ =>
    match lookupFS fs p with
    | none => ⟨[], fs, 1, false⟩
    | some c => ⟨[OutMsg.fixedFile], updateFS fs p (fix_addtool_pattern c), 0, true⟩

/-- The `__main__` block plus file persistence of fix-types.py (lines
112–131): missing argument or nonexistent path exit with status 1; otherwise
the file is rewritten only when the change counter is positive. -/
def annotatorMain (args : List Str) (fs : FS) : RunRes :=
  match args with
  | [] => ⟨[OutMsg.usageAnnotator], fs, 1, false⟩
  | p :: _ =>
    match lookupFS fs p with
    | none => ⟨[OutMsg.fileNotFound], fs, 1, false⟩
    | some c =>
      let r := fix_createtoolhandler_types c
      if 0 < r.2 then ⟨[OutMsg.fixedTypes r.2], updateFS fs p r.1, 0, true⟩
      else ⟨[OutMsg.noChanges], fs, 0, false⟩

/-!
Generic lemmas about the matcher: whatever a sub-pattern consumes, the
continuation is invoked on a suffix of the input, and the specific
inversions for literal runs and character-class quantifiers.
-/

theorem oalt_eq_some {a b : Option (Groups × Str)} {v : Groups × Str}
    (h : oalt a b = some v) : a = some v ∨ (a = none ∧ b = some v) := by
  cases a with
  | some w => left; simpa [oalt] using h
  | none => right; exact ⟨rfl, by simpa [oalt] using h⟩

theorem matStarAux_suffix
    (m : Str → Groups → (Groups → Str → Option (Groups × Str)) → Option (Groups × Str))
    (hm : ∀ s g k v, m s g k = some v → ∃ g2 t, t.IsSuffix s ∧ k g2 t = some v) :
    ∀ (fuel : Nat) (s : Str) (g : Groups) (k : Groups → Str → Option (Groups × Str))
      (v : Groups × Str), matStarAux m fuel s g k = some v →
      ∃ g2 t, t.IsSuffix s ∧ k g2 t = some v := by
  intro fuel
  induction fuel with
  | zero =>
    intro s g k v h
    exact ⟨g, s, List.suffix_refl s, by simpa [matStarAux] using h⟩
  | succ n ih =>
    intro s g k v h
    simp only [matStarAux] at h
    rcases oalt_eq_some h with h' | ⟨-, h'⟩
    · obtain ⟨g1, t1, ht1, h1⟩ := hm _ _ _ _ h'
      split at h1
      · obtain ⟨g2, t2, ht2, h2⟩ := ih _ _ _ _ h1
        exact ⟨g2, t2, ht2.trans ht1, h2⟩
      · cases h1
    · exact ⟨g, s, List.suffix_refl s, h'⟩

theorem mat_suffix : ∀ (r : RE) (s : Str) (g : Groups)
    (k : Groups → Str → Option (Groups × Str)) (v : Groups × Str),
    mat r s g k = some v → ∃ g2 t, t.IsSuffix s ∧ k g2 t = some v := by
  intro r
  induction r with
  | eps =>
    intro s g k v h
    exact ⟨g, s, List.suffix_refl s, by simpa [mat] using h⟩
  | ch cs =>
    intro s g k v h
    cases s with
    | nil => simp [mat] at h
    | cons c t =>
      simp only [mat] at h
      split at h
      · exact ⟨g, t, List.suffix_cons c t, h⟩
      · cases h
  | seq a b iha ihb =>
    intro s g k v h
    simp only [mat] at h
    obtain ⟨g1, t1, ht1, h1⟩ := iha _ _ _ _ h
    obtain ⟨g2, t2, ht2, h2⟩ := ihb _ _ _ _ h1
    exact ⟨g2, t2, ht2.trans ht1, h2⟩
  | star r ihr =>
    intro s g k v h
    simp only [mat] at h
    exact matStarAux_suffix (mat r) ihr _ _ _ _ _ h
  | opt r ihr =>
    intro s g k v h
    simp only [mat] at h
    rcases oalt_eq_some h with h' | ⟨-, h'⟩
    · exact ihr _ _ _ _ h'
    · exact ⟨g, s, List.suffix_refl s, h'⟩
  | grp n r ihr =>
    intro s g k v h
    simp only [mat] at h
    obtain ⟨g1, t, ht, h1⟩ := ihr _ _ _ _ h
    exact ⟨_, t, ht, h1⟩

theorem mat_lits : ∀ (l : Str) (s : Str) (g : Groups)
    (k : Groups → Str → Option (Groups × Str)) (v : Groups × Str),
    mat (lits l) s g k = some v → ∃ t, s = l ++ t ∧ k g t = some v := by
  intro l
  induction l with
  | nil =>
    intro s g k v h
    exact ⟨s, by simp, by simpa [lits, mat] using h⟩
  | cons c cs ih =>
    intro s g k v h
    cases s with
    | nil => simp [lits, litRE, mat] at h
    | cons a t =>
      simp only [lits, litRE, mat] at h
      split at h
      · rename_i hc
        have ha : a = c := by simpa [csMem] using hc
        obtain ⟨t2, ht2, hk⟩ := ih t g k v h
        exact ⟨t2, by simp [ha, ht2], hk⟩
      · cases h

theorem matStarAux_cls (cs : CSet) :
    ∀ (fuel : Nat) (s : Str) (g : Groups) (k : Groups → Str → Option (Groups × Str))
      (v : Groups × Str), matStarAux (mat (RE.ch cs)) fuel s g k = some v →
    ∃ p t, s = p ++ t ∧ (∀ c ∈ p, csMem cs c = true) ∧ k g t = some v := by
  intro fuel
  induction fuel with
  | zero =>
    intro s g k v h
    exact ⟨[], s, by simp, by simp, by simpa [matStarAux] using h⟩
  | succ n ih =>
    intro s g k v h
    simp only [matStarAux] at h
    rcases oalt_eq_some h with h' | ⟨-, h'⟩
    · cases s with
      | nil => simp [mat] at h'
      | cons a t =>
        simp only [mat] at h'
        split at h'
        · rename_i hc
          rw [if_pos (by simp)] at h'
          obtain ⟨p, t2, hst, hall, hk⟩ := ih _ _ _ _ h'
          refine ⟨a :: p, t2, by simp [hst], ?_, hk⟩
          intro c hmem
          rcases List.mem_cons.mp hmem with rfl | hmem
          · exact hc
          · exact hall c hmem
        · cases h'
    · exact ⟨[], s, by simp, by simp, h'⟩

theorem mat_star_cls (cs : CSet) (s : Str) (g : Groups)
    (k : Groups → Str → Option (Groups × Str)) (v : Groups × Str)
    (h : mat (RE.star (RE.ch cs)) s g k = some v) :
    ∃ p t, s = p ++ t ∧ (∀ c ∈ p, csMem cs c = true) ∧ k g t = some v := by
  simp only [mat] at h
  exact matStarAux_cls cs _ _ _ _ _ h

theorem mat_plus_cls {cs : CSet} {s : Str} {g : Groups}
    {k : Groups → Str → Option (Groups × Str)} {v : Groups × Str}
    (h : mat (plusRE (RE.ch cs)) s g k = some v) :
    ∃ p t, s = p ++ t ∧ p ≠ [] ∧ (∀ c ∈ p, csMem cs c = true) ∧ k g t = some v := by
  simp only [plusRE, mat] at h
  cases s with
  | nil => cases h
  | cons a t =>
    simp only [mat] at h
    split at h
    · rename_i hc
      obtain ⟨p, t2, hst, hall, hk⟩ := matStarAux_cls cs _ _ _ _ _ h
      refine ⟨a :: p, t2, by simp [hst], by simp, ?_, hk⟩
      intro c hmem
      rcases List.mem_cons.mp hmem with rfl | hmem
      · exact hc
      · exact hall c hmem
    · cases h

theorem gsub_no_match (f : Nat → Str → Groups → Nat → Str × Nat) (r : RE)
    (fuel pos : Nat) (s : Str) (st : Nat) (h : findLeftmost r s = none) :
    gsub f r fuel pos s st = (s, st) := by
  cases fuel with
  | zero => simp [gsub]
  | succ n => simp [gsub, h]

/-!
The C9 machinery: every match of either call-site pattern of the Type
Annotator contains a literal `"` immediately followed by a quote character
(the `"['"]` forced by the patterns at the close of the name literal).
-/

/-- Whether the text contains a `"` immediately followed by `'` or `"`. -/
def hasDQpair : Str → Bool
  | a :: b :: t => ((a == '\x22') && ((b == '\x27') || (b == '\x22'))) || hasDQpair (b :: t)
  | _ => false

theorem hasDQpair_cons {t : Str} (c : Char) (h : hasDQpair t = true) :
    hasDQpair (c :: t) = true := by
  cases t with
  | nil => simp [hasDQpair] at h
  | cons b u => simp [hasDQpair, h]

theorem hasDQpair_append (p : Str) {v : Str} (h : hasDQpair v = true) :
    hasDQpair (p ++ v) = true := by
  induction p with
  | nil => simpa using h
  | cons c q ih => exact hasDQpair_cons c ih

theorem hasDQpair_pair {b : Char} (t : Str) (hb : b = '\x27' ∨ b = '\x22') :
    hasDQpair ('\x22' :: b :: t) = true := by
  rcases hb with rfl | rfl <;> simp [hasDQpair]

theorem hasDQpair_of_suffix {u s : Str} (hsuf : u.IsSuffix s)
    (h : hasDQpair u = true) : hasDQpair s = true := by
  obtain ⟨p, rfl⟩ := hsuf
  exact hasDQpair_append p h

/-- The continuation a concatenation hands its left component. -/
def contSeq (b : RE) (k : Groups → Str → Option (Groups × Str)) :
    Groups → Str → Option (Groups × Str) :=
  fun g1 s1 => mat b s1 g1 k

/-- The capture-recording continuation of a group. -/
def contGrp (n : Nat) (s : Str) (k : Groups → Str → Option (Groups × Str)) :
    Groups → Str → Option (Groups × Str) :=
  fun g1 s1 => k ((n, s.take (s.length - s1.length)) :: g1) s1

theorem mat_seq_inv {a b : RE} {s : Str} {g : Groups}
    {k : Groups → Str → Option (Groups × Str)} {v : Groups × Str}
    (h : mat (RE.seq a b) s g k = some v) : mat a s g (contSeq b k) = some v := h

theorem mat_grp_inv {n : Nat} {r : RE} {s : Str} {g : Groups}
    {k : Groups → Str → Option (Groups × Str)} {v : Groups × Str}
    (h : mat (RE.grp n r) s g k = some v) : mat r s g (contGrp n s k) = some v := h

theorem mat_ch_inv {cs : CSet} {s : Str} {g : Groups}
    {k : Groups → Str → Option (Groups × Str)} {v : Groups × Str}
    (h : mat (RE.ch cs) s g k = some v) :
    ∃ c t, s = c :: t ∧ csMem cs c = true ∧ k g t = some v := by
  cases s with
  | nil =>
    have h' : (none : Option (Groups × Str)) = some v := h
    cases h'
  | cons c t =>
    have h' : (if csMem cs c = true then k g t else none) = some v := h
    split at h'
    · exact ⟨c, t, rfl, by assumption, h'⟩
    · cases h'

theorem mat_prefpat_hasDQpair (X : RE) (s : Str) (g : Groups)
    (k : Groups → Str → Option (Groups × Str)) (v : Groups × Str)
    (h : mat (RE.seq (RE.grp 1 prefRE) X) s g k = some v) :
    hasDQpair s = true := by
  have h1 : mat prefRE s g (contGrp 1 s (contSeq X k)) = some v :=
    mat_grp_inv (mat_seq_inv h)
  have h2 := mat_seq_inv h1
  obtain ⟨g1, t1, ht1, hk⟩ := mat_suffix _ _ _ _ _ h2
  have h3 := mat_seq_inv hk
  obtain ⟨a, t2, rfl, ha, hk2⟩ := mat_ch_inv h3
  have ha' : a = '\x22' := by simpa [csMem] using ha
  have h4 := mat_seq_inv hk2
  obtain ⟨b, t3, rfl, hb, -⟩ := mat_ch_inv h4
  have hb' : b = '\x27' ∨ b = '\x22' := by
    have hbb := hb
    simp [csMem, qtCls] at hbb
    rcases hbb with h' | h'
    · exact Or.inl h'.symm
    · exact Or.inr h'.symm
  have hpair : hasDQpair (a :: b :: t3) = true := ha' ▸ hasDQpair_pair t3 hb'
  exact hasDQpair_of_suffix ht1 hpair

theorem findLeftmost_prefpat_hasDQpair (X : RE) :
    ∀ (s : Str) (fd : Found),
    findLeftmost (RE.seq (RE.grp 1 prefRE) X) s = some fd → hasDQpair s = true := by
  intro s
  induction s with
  | nil =>
    intro fd h
    simp only [findLeftmost, Option.map_eq_some'] at h
    obtain ⟨gr, hgr, -⟩ := h
    exact mat_prefpat_hasDQpair X _ _ _ _ hgr
  | cons c t ih =>
    intro fd h
    simp only [findLeftmost] at h
    cases hm : matchHere (RE.seq (RE.grp 1 prefRE) X) (c :: t) with
    | some gr => exact mat_prefpat_hasDQpair X _ _ _ _ hm
    | none =>
      rw [hm] at h
      simp only [Option.map_eq_some'] at h
      obtain ⟨fd', hfd', -⟩ := h
      exact hasDQpair_cons c (ih fd' hfd')

theorem npCls_not_rpar {c : Char} (h : csMem npCls c = true) : ¬(c = ')') := by
  intro e
  subst e
  simp [csMem, npCls] at h

/-- Claim C9: both call-site patterns of the Type Annotator demand a literal
double-quote immediately before the closing quote of the name literal, so on
any file whose text never has a `"` directly followed by a quote character
(in particular any file whose registerTool name and description literals are
ordinary quoted literals such as `'n'` and `'d'`), neither pass matches any
call site, the change counter stays zero, and the text is returned untouched. -/
theorem c9_ordinary_quotes_untouched (content : Str) (h : hasDQpair content = false) :
    fix_createtoolhandler_types content = (content, 0) := by
  have h1 : findLeftmost pattern content = none := by
    cases hf : findLeftmost pattern content with
    | none => rfl
    | some fd =>
      have hq := findLeftmost_prefpat_hasDQpair namedTail content fd hf
      rw [h] at hq
      cases hq
  have h2 : findLeftmost inline_pattern content = none := by
    cases hf : findLeftmost inline_pattern content with
    | none => rfl
    | some fd =>
      have hq := findLeftmost_prefpat_hasDQpair inlineTail content fd hf
      rw [h] at hq
      cases hq
  simp only [fix_createtoolhandler_types]
  rw [gsub_no_match (replacer (extract_schemas content) content) pattern
        (content.length + 1) 0 content 0 h1]
  exact gsub_no_match _ _ _ _ _ _ h2

def c9_input : Str :=
  ("this.registerTool(\x27n\x27,\x27d\x27, S, createToolHandler(x)").data

theorem c9_ordinary_quotes_untouched_witness :
    hasDQpair c9_input = false ∧ fix_createtoolhandler_types c9_input = (c9_input, 0) :=
  ⟨by decide, c9_ordinary_quotes_untouched c9_input (by decide)⟩

/-- Claim C10: the inline-schema pattern's third-argument group
`z\.object\s*\([^)]+\)` cannot extend past the first close-parenthesis:
every successful match of `inline_pattern` decomposes the input as
`... z.object <spaces> ( <body> ) ...` where the body is non-empty and
contains no close-parenthesis at all.  Consequently a registerTool call
whose inline `z.object({...})` argument has a `)` inside its body (any
field built with a zod constructor call such as `z.string()`) is never
matched, so the inline-schema pass produces no annotation for it and
leaves it unchanged. -/
theorem c10_inline_schema_group_single_paren (s : Str)
    (h : (matchHere inline_pattern s).isSome = true) :
    ∃ pre w body rest2,
      s = pre ++ "z.object".data ++ w ++ '(' :: (body ++ ')' :: rest2) ∧
      (∀ c ∈ w, isSpaceC c = true) ∧ body ≠ [] ∧ ∀ c ∈ body, ¬(c = ')') := by
  obtain ⟨⟨g, rest⟩, hm⟩ := Option.isSome_iff_exists.mp h
  have h0 : mat (RE.seq (RE.grp 1 prefRE) inlineTail) s []
      (fun g2 t => some (g2, t)) = some (g, rest) := hm
  have h1 := mat_seq_inv h0
  obtain ⟨g1, t1, ht1, hk⟩ := mat_suffix _ _ _ _ _ h1
  have h2 := mat_grp_inv (mat_seq_inv hk)
  have h3 := mat_seq_inv h2
  obtain ⟨t2, ht2, hk2⟩ := mat_lits _ _ _ _ _ h3
  have h4 := mat_seq_inv hk2
  obtain ⟨w, t3, ht3, hws, hk3⟩ := mat_star_cls CSet.space _ _ _ _ h4
  have h5 := mat_seq_inv hk3
  obtain ⟨a, t4, rfl, ha, hk4⟩ := mat_ch_inv h5
  have ha' : a = '(' := by simpa [csMem] using ha
  have h6 := mat_seq_inv hk4
  obtain ⟨body, t5, hbt, hbne, hball, hk5⟩ := mat_plus_cls h6
  obtain ⟨b, t6, rfl, hb, -⟩ := mat_ch_inv hk5
  have hb' : b = ')' := by simpa [csMem] using hb
  obtain ⟨pre, hpre⟩ := ht1
  refine ⟨pre, w, body, t6, ?_, fun c hc => hws c hc, hbne,
    fun c hc => npCls_not_rpar (hball c hc)⟩
  rw [← hpre, ht2, ht3, hbt, ha', hb']
  simp

def c10_input : Str :=
  ("this.registerTool(\x27n\x22\x27,\x27d\x22\x27,z.object(\x7by:1), createToolHandler(").data

theorem c10_inline_schema_group_single_paren_witness :
    ∃ pre w body rest2,
      c10_input = pre ++ "z.object".data ++ w ++ '(' :: (body ++ ')' :: rest2) ∧
      (∀ c ∈ w, isSpaceC c = true) ∧ body ≠ [] ∧ ∀ c ∈ body, ¬(c = ')') :=
  c10_inline_schema_group_single_paren c10_input (by decide)

/-!
Concrete evaluations of the Type Annotator exhibiting where the code
diverges from the specified behaviour.
-/

def c1_input : Str :=
  ("const FooSchema = z.object(\x7b x: z.string() \x7d)\nthis.registerTool(\x27n\x27,\x27d\x27, FooSchema, createToolHandler(h))").data

/-- Claim C1 (failing on the code): the file declares `FooSchema` (the
schema map does contain it) and holds the call site
`this.registerTool('n','d', FooSchema, createToolHandler(` with no
following `<`, yet the Type Annotator changes nothing: the call-site
pattern demands a literal `"` immediately before each closing quote
(`[^'"]+"['"]`), which the ordinary literals `'n'` and `'d'` lack, so no
annotation is inserted and the counter stays zero. -/
theorem c1_named_pass_eval :
    (extract_schemas c1_input).map Prod.fst = ["FooSchema".data] ∧
    fix_createtoolhandler_types c1_input = (c1_input, 0) :=
  ⟨by decide, by decide⟩

def c3_input : Str :=
  ("const FSchema = z.object(\x7bx\x7d)\nthis.registerTool(\x27n\x22\x27,\x27d\x22\x27,FSchema, createToolHandler(\nthis.registerTool(\x27m\x22\x27,\x27e\x22\x27,z.object(\x7by:1), createToolHandler(async (\x7b y \x7d) => \x7bqqqqqqq<\x7d)").data

/-- Claim C3 (failing on the code): the Type Annotator is not idempotent.
On this input the first run makes one change (the named-schema pass
annotates the `FSchema` site, shifting all later offsets by 25), and the
inline-schema pass then reads its already-annotated look-ahead from the
original `content` at offsets of the shifted `new_content` (fix-types.py
line 67), sees the planted `<` and skips the inline site.  The second run,
whose offsets are consistent again, annotates that site: it reports one
further change and produces different text. -/
theorem c3_not_idempotent :
    (fix_createtoolhandler_types c3_input).2 = 1 ∧
    (fix_createtoolhandler_types (fix_createtoolhandler_types c3_input).1).2 = 1 ∧
    (fix_createtoolhandler_types (fix_createtoolhandler_types c3_input).1).1 ≠
      (fix_createtoolhandler_types c3_input).1 :=
  ⟨by decide, by decide, by decide⟩

def c4_input : Str :=
  ("this.registerTool(\x27n\x22\x27,\x27d\x22\x27, z.object(\x7b bar: z.string().optional(), count: z.number() \x7d), createToolHandler(async (\x7b bar, count \x7d) => \x7b return 1 \x7d))").data

/-- Claim C4 (failing on the code): a registerTool call whose inline schema
body contains `bar: z.string().optional()` (and `count: z.number()`) with
the handler destructuring `{ bar, count }` receives no synthesized
annotation at all — the inline pattern's `[^)]+` group cannot reach past
the `)` of `z.string(`, the required `,\s*createToolHandler` does not
follow there, and the call site is left untouched with the counter at zero
(no `bar?: string`, no `count: number` is ever produced). -/
theorem c4_inline_pass_eval :
    fix_createtoolhandler_types c4_input = (c4_input, 0) := by decide

/-- The one-match case of `re.sub`: a leftmost match with no further match
after it yields prefix ++ replacement ++ rest. -/
theorem gsub_single (f : Nat → Str → Groups → Nat → Str × Nat) (r : RE)
    (fuel pos : Nat) (s : Str) (st : Nat) (fd : Found)
    (h1 : findLeftmost r s = some fd) (hne : fd.matched ≠ [])
    (h6 : findLeftmost r fd.rest = none) (hfuel : fuel ≠ 0) :
    gsub f r fuel pos s st =
      (fd.pre ++ (f (pos + fd.pre.length + fd.matched.length) fd.matched fd.grps st).1 ++ fd.rest,
       (f (pos + fd.pre.length + fd.matched.length) fd.matched fd.grps st).2) := by
  cases fuel with
  | zero => exact absurd rfl hfuel
  | succ n =>
    have hem : fd.matched.isEmpty = false := by
      cases hl : fd.matched.isEmpty
      · rfl
      · exact absurd (List.isEmpty_iff.mp hl) hne
    rcases hX : f (pos + fd.pre.length + fd.matched.length) fd.matched fd.grps st with ⟨rep, st1⟩
    simp only [gsub, h1, hem, Bool.false_eq_true, if_false, hX,
      gsub_no_match f r n _ fd.rest st1 h6]

/-- Claim C2: any addTool block from which the name, the description, the
schema identifier, or the handler body sub-pattern is absent is substituted
back byte-for-byte: `transform_match` returns the original match text
unchanged. -/
theorem c2_unparsable_block_preserved (g0 g1 : Str)
    (h : reSearch namePropRE (stripWS g1) = none ∨
         reSearch descPropRE (stripWS g1) = none ∨
         reSearch schemaPropRE (stripWS g1) = none ∨
         reSearch handlerPropRE (stripWS g1) = none) :
    transform_match g0 g1 = g0 := by
  rcases h with h | h | h | h
  · simp [transform_match, h]
  · cases hn : reSearch namePropRE (stripWS g1) with
    | none => simp [transform_match, hn]
    | some ng => simp [transform_match, hn, h]
  · cases hn : reSearch namePropRE (stripWS g1) with
    | none => simp [transform_match, hn]
    | some ng =>
      cases hd : reSearch descPropRE (stripWS g1) with
      | none => simp [transform_match, hn, hd]
      | some dg => simp [transform_match, hn, hd, h]
  · cases hn : reSearch namePropRE (stripWS g1) with
    | none => simp [transform_match, hn]
    | some ng =>
      cases hd : reSearch descPropRE (stripWS g1) with
      | none => simp [transform_match, hn, hd]
      | some dg =>
        cases hs : reSearch schemaPropRE (stripWS g1) with
        | none => simp [transform_match, hn, hd, hs]
        | some sg => simp [transform_match, hn, hd, hs, h]

theorem c2_unparsable_block_preserved_witness :
    transform_match ("X").data ("name: \x27a\x27").data = ("X").data :=
  c2_unparsable_block_preserved _ _ (Or.inr (Or.inl (by decide)))

/-- Claim C8: at a named-pass call site whose third-argument identifier is
not a key of the schema map, `replacer` returns the original match text and
leaves the change counter untouched (and likewise when the look-ahead shows
an existing annotation). -/
theorem c8_unknown_schema_site_unchanged (schemas : List (Str × Str)) (content : Str)
    (endAbs : Nat) (g0 : Str) (g : Groups) (changes : Nat)
    (h : (schemas.map Prod.fst).any (fun k => k == getGroup g 2) = false) :
    replacer schemas content endAbs g0 g changes = (g0, changes) := by
  simp only [replacer]
  split
  · rfl
  · simp [h]

theorem c8_unknown_schema_site_unchanged_witness :
    replacer [] [] 0 ("Y").data [] 3 = (("Y").data, 3) :=
  c8_unknown_schema_site_unchanged [] [] 0 ("Y").data [] 3 (by decide)

/-- Claim C5: the Type Annotator persists the file (and prints the success
message) exactly when the shared change counter is positive after both
passes; with a zero counter the no-changes message is printed and the
stored file content is untouched. -/
theorem c5_write_iff_changes (fs : FS) (p content : Str)
    (h : lookupFS fs p = some content) :
    ((annotatorMain [p] fs).wrote = true ↔ 0 < (fix_createtoolhandler_types content).2) ∧
    (0 < (fix_createtoolhandler_types content).2 →
      (annotatorMain [p] fs).fs = updateFS fs p (fix_createtoolhandler_types content).1 ∧
      (annotatorMain [p] fs).out = [OutMsg.fixedTypes (fix_createtoolhandler_types content).2]) ∧
    ((fix_createtoolhandler_types content).2 = 0 →
      (annotatorMain [p] fs).fs = fs ∧ (annotatorMain [p] fs).out = [OutMsg.noChanges]) := by
  simp only [annotatorMain, h]
  by_cases hc : 0 < (fix_createtoolhandler_types content).2
  · simp [hc, Nat.pos_iff_ne_zero.mp hc]
  · simp [hc]

theorem c5_write_iff_changes_witness :
    ((annotatorMain [("f").data] [(("f").data, ("x").data)]).wrote = true ↔
      0 < (fix_createtoolhandler_types ("x").data).2) ∧
    (0 < (fix_createtoolhandler_types ("x").data).2 →
      (annotatorMain [("f").data] [(("f").data, ("x").data)]).fs =
        updateFS [(("f").data, ("x").data)] ("f").data (fix_createtoolhandler_types ("x").data).1 ∧
      (annotatorMain [("f").data] [(("f").data, ("x").data)]).out =
        [OutMsg.fixedTypes (fix_createtoolhandler_types ("x").data).2]) ∧
    ((fix_createtoolhandler_types ("x").data).2 = 0 →
      (annotatorMain [("f").data] [(("f").data, ("x").data)]).fs = [(("f").data, ("x").data)] ∧
      (annotatorMain [("f").data] [(("f").data, ("x").data)]).out = [OutMsg.noChanges]) :=
  c5_write_iff_changes [(("f").data, ("x").data)] ("f").data ("x").data (by decide)

/-- Claim C7: with zero command-line arguments the Pattern Rewriter prints
its usage message, modifies no file and ends without a forced non-zero exit
status; the Type Annotator exits with status 1 (with an error message) when
the file argument is missing or when the given path does not exist. -/
theorem c7_cli_behaviour (fs : FS) (p : Str) (h : lookupFS fs p = none) :
    rewriterMain [] fs = ⟨[OutMsg.usageRewriter], fs, 0, false⟩ ∧
    annotatorMain [] fs = ⟨[OutMsg.usageAnnotator], fs, 1, false⟩ ∧
    annotatorMain [p] fs = ⟨[OutMsg.fileNotFound], fs, 1, false⟩ := by
  refine ⟨rfl, rfl, ?_⟩
  simp only [annotatorMain, h]

theorem c7_cli_behaviour_witness :
    rewriterMain [] [] = ⟨[OutMsg.usageRewriter], [], 0, false⟩ ∧
    annotatorMain [] [] = ⟨[OutMsg.usageAnnotator], [], 1, false⟩ ∧
    annotatorMain [("x").data] [] = ⟨[OutMsg.fileNotFound], [], 1, false⟩ :=
  c7_cli_behaviour [] ("x").data (by decide)

/-- Claim C6: an input whose single old-style addTool block carries all four
required fields (a leftmost match with no further match after it, with the
name, description, schema and handler sub-searches all succeeding) is
rewritten into exactly one new-style registerTool call, with the fixed
four-space indentation of `registerToolText` and the handler body copied
verbatim minus trailing whitespace and commas; and any input with no
matching block is returned as text identical to the input. -/
theorem c6_single_block_rewrite (content : Str) (fd : Found) (ng dg sg hg : Groups)
    (h1 : findLeftmost addtool_pattern content = some fd)
    (hne : fd.matched ≠ [])
    (h2 : reSearch namePropRE (stripWS (getGroup fd.grps 1)) = some ng)
    (h3 : reSearch descPropRE (stripWS (getGroup fd.grps 1)) = some dg)
    (h4 : reSearch schemaPropRE (stripWS (getGroup fd.grps 1)) = some sg)
    (h5 : reSearch handlerPropRE (stripWS (getGroup fd.grps 1)) = some hg)
    (h6 : findLeftmost addtool_pattern fd.rest = none) :
    fix_addtool_pattern content =
      fd.pre ++ registerToolText (getGroup ng 1) (getGroup dg 1) (getGroup sg 1)
        (rstripComma (rstripWS (getGroup hg 1))) ++ fd.rest ∧
    ∀ c : Str, findLeftmost addtool_pattern c = none → fix_addtool_pattern c = c := by
  constructor
  · have hstep := gsub_single (fun _ g0 g st => (transform_match g0 (getGroup g 1), st))
      addtool_pattern (content.length + 1) 0 content 0 fd h1 hne h6 (by simp)
    have ht : transform_match fd.matched (getGroup fd.grps 1) =
        registerToolText (getGroup ng 1) (getGroup dg 1) (getGroup sg 1)
          (rstripComma (rstripWS (getGroup hg 1))) := by
      simp only [transform_match, h2, h3, h4, h5]
    unfold fix_addtool_pattern
    rw [hstep]
    simp [ht]
  · intro c hc
    unfold fix_addtool_pattern
    rw [gsub_no_match _ _ _ _ _ _ hc]

def c6_input : Str :=
  ("this.addTool(\x7bname: \x22a\x22, description: \x22b\x22, inputSchema: S, handler: async () => \x7b return 1 \x7d\x7d);").data

def c6_block : Str :=
  ("name: \x22a\x22, description: \x22b\x22, inputSchema: S, handler: async () => \x7b return 1 \x7d").data

theorem c6_single_block_rewrite_witness :
    fix_addtool_pattern c6_input =
      ("    this.registerTool(\n      \x27a\x27,\n      \x27b\x27,\n      S,\n      createToolHandler(async () => \x7b return 1 \x7d)\n    )").data ∧
    fix_addtool_pattern ("abc").data = ("abc").data := by
  have h := c6_single_block_rewrite c6_input ⟨[], [(1, c6_block)], c6_input, []⟩
    [(1, ("a").data)] [(1, ("b").data)] [(1, ("S").data)]
    [(1, ("async () => \x7b return 1 \x7d").data)]
    (by decide) (by decide) (by decide) (by decide) (by decide) (by decide) (by decide)
  exact ⟨by rw [h.1]; decide, h.2 ("abc").data (by decide)⟩
